import Mathlib

/-!
Verification of the reactivity core (Observer / Dep / Watcher / array
interceptor) of the repository, as a shallow embedding in Lean 4.

The JavaScript source consists of the observer module (`Observer`,
`observe`, `defineReactive`, `set`, `del`, `dependArray`), the dependency
node (`Dep`, `pushTarget`, `popTarget`), the subscriber (`Watcher`) and
the array-mutator interceptor (`arrayMethods`).  Mutable JS state is
embedded as explicit state records; JS dynamic values are embedded as an
inductive `Value` type with reference identity for objects; JS strict
equality `===` (under which `NaN !== NaN`) is embedded as `jsEq`.
-/

namespace VueCore

/-- JS runtime values, as far as the reactivity core inspects them:
`undefined`, `null`, booleans, (non-NaN) numbers, `NaN`, strings, and
object references (plain objects and arrays are heap references; `===`
on them is reference equality). -/
inductive Value where
  | undefinedV
  | nullV
  | boolV (b : Bool)
  | numV (n : Int)
  | nanV
  | strV (s : String)
  | objV (ref : Nat)
deriving DecidableEq, Repr

/-- JS strict equality `===`: `NaN` is never equal to anything (itself
included); all other values compare structurally (object references by
identity). -/
def jsEq (a b : Value) : Bool :=
  match a, b with
  | Value.nanV, _ => false
  | _, Value.nanV => false
  | a, b => a == b

/-- The source's `isObject` check: `obj !== null && typeof obj === "object"`.
Only heap references satisfy it. -/
def isObjectV : Value → Bool
  | Value.objV _ => true
  | _ => false

theorem jsEq_refl_of_ne_nan (a : Value) (h : a ≠ Value.nanV) : jsEq a a = true := by
  cases a <;> simp [jsEq] at h ⊢

theorem jsEq_self_eq_false_iff (a : Value) : jsEq a a = false ↔ a = Value.nanV := by
  cases a <;> simp [jsEq]

/-! ### The reactive setter installed by `defineReactive`

`defineReactive` installs `reactiveSetter` as the `set` accessor of a
converted field.  The field's state is the closure variable `val`, plus
the captured pre-existing accessor pair (`getter`, `setter`).  The
pre-existing getter is embedded as the value it currently returns
(`getterVal : Option Value`, `none` when there is no getter); a
pre-existing setter's effect is external to the closure, so it is
embedded just by its presence (`hasSetter`).  The result records the
closure value after the call, whether `dep.notify()` ran, and whether
the new value was re-observed (`childOb = !shallow && observe(newVal)`). -/
structure SetterResult where
  val : Value
  notified : Bool
  reobserved : Bool
deriving DecidableEq, Repr

/-- `reactiveSetter(newVal)` from `defineReactive`:
compute the old value through the pre-existing getter if any; return
without effect when `newVal === value || (newVal !== newVal && value !== value)`;
return without effect when there is a pre-existing getter but no setter;
otherwise store (through the pre-existing setter if present, else the
closure), re-observe the new value unless shallow, and notify.
(The dev-only `customSetter`, which can only emit a warning, is omitted.) -/
def reactiveSetter (getterVal : Option Value) (hasSetter : Bool) (shallow : Bool)
    (val : Value) (newVal : Value) : SetterResult :=
  let value := getterVal.getD val
  if jsEq newVal value || (!jsEq newVal newVal && !jsEq value value) then
    { val := val, notified := false, reobserved := false }
  else if getterVal.isSome && !hasSetter then
    { val := val, notified := false, reobserved := false }
  else if hasSetter then
    { val := val, notified := true, reobserved := !shallow }
  else
    { val := newVal, notified := true, reobserved := !shallow }

/-! ### `set(target, key, value)` (object path)

`set` on a plain-object target (for which `Array.isArray(target)` is
false, so the array branch is skipped).  A plain object is embedded as
its own enumerable fields plus its optional `__ob__` back-reference
(carrying `vmCount`) and its `_isVue` flag.  Warnings are emitted only
in non-production builds (`dev`). -/
structure ObInfo where
  vmCount : Nat
deriving DecidableEq, Repr

structure PlainObj where
  fields : List (String × Value)
  ob : Option ObInfo
  isVue : Bool
deriving DecidableEq, Repr

structure SetEffects where
  warned : Bool
  notified : Bool
  wired : Bool
deriving DecidableEq, Repr

/-- Assignment `target[key] = val` on a plain object: update the binding
if the key is present, append it otherwise. -/
def setAssoc : List (String × Value) → String → Value → List (String × Value)
  | [], k, v => [(k, v)]
  | (k', v') :: rest, k, v =>
      if k' = k then (k, v) :: rest else (k', v') :: setAssoc rest k v

/-- The object path of `set(target, key, val)`:
if `key in target` it is a plain write; else if `target._isVue` or the
target's Observer has `vmCount` non-zero, warn (dev builds) and return
`val` without touching the target; else if the target has no Observer,
plain write with no notification; else `defineReactive(ob.value, key, val)`
(the field is wired reactive) followed by `ob.dep.notify()`.
Returns (target after the call, return value, effects). -/
def vueSetObj (dev : Bool) (o : PlainObj) (key : String) (v : Value) :
    PlainObj × Value × SetEffects :=
  if (o.fields.lookup key).isSome then
    ({ o with fields := setAssoc o.fields key v }, v,
      { warned := false, notified := false, wired := false })
  else if o.isVue || (match o.ob with | some ob => ob.vmCount ≠ 0 | none => false) then
    (o, v, { warned := dev, notified := false, wired := false })
  else
    match o.ob with
    | none =>
        ({ o with fields := setAssoc o.fields key v }, v,
          { warned := false, notified := false, wired := false })
    | some _ =>
        ({ o with fields := setAssoc o.fields key v }, v,
          { warned := false, notified := true, wired := true })

/-! ### The array-mutator interceptor

`arrayMethods` wraps the seven in-place mutators.  Each wrapper runs the
original built-in first (`original.apply(this, args)`), computes the
inserted elements (`args` for push/unshift, `args.slice(2)` for splice,
undefined otherwise), calls `ob.observeArray(inserted)` when `inserted`
is defined (note: an empty `args` array is still truthy in JS, so
`observeArray([])` is still called), notifies `ob.dep`, and returns the
original's result.  The built-in itself is external to the repository,
so it is a parameter `original` mapping the receiver's elements and the
arguments to (new elements, return value). -/
inductive ArrMethod where
  | push | pop | shift | unshift | splice | sort | reverse
deriving DecidableEq, Repr

structure ArrEffects where
  observedInserted : Option (List Value)
  notified : Bool
deriving DecidableEq, Repr

def insertedArgs (method : ArrMethod) (args : List Value) : Option (List Value) :=
  match method with
  | ArrMethod.push => some args
  | ArrMethod.unshift => some args
  | ArrMethod.splice => some (args.drop 2)
  | _ => none

def arrayMutator {α : Type} (method : ArrMethod)
    (original : List Value → List Value → List Value × α)
    (elems : List Value) (args : List Value) : (List Value × α) × ArrEffects :=
  let res := original elems args
  (res, { observedInserted := insertedArgs method args, notified := true })

/-- The `push` built-in over embedded arrays: appends all arguments and
returns the new length. -/
def jsPush (elems args : List Value) : List Value × Value :=
  (elems ++ args, Value.numV (elems.length + args.length))

/-- The `pop` built-in: removes the last element and returns it
(`undefined` on an empty array). -/
def jsPop (elems _args : List Value) : List Value × Value :=
  (elems.dropLast, (elems.getLast?).getD Value.undefinedV)

/-! ### `Dep.notify`

`notify()` first copies the subscriber list (`this.subs.slice()`);
then, only when `process.env.NODE_ENV !== "production"` and
`config.async` is false, sorts the copy by ascending watcher id
(`subs.sort((a, b) => a.id - b.id)`); then calls `update()` on each
element of the copy in order.  An `update()` call may mutate the dep's
live subscriber list (e.g. a watcher tearing down), which is embedded
by letting `update` be an arbitrary transformer of the live list. -/
structure WRef where
  id : Nat
deriving DecidableEq, Repr

/-- Sorting by ascending watcher id, embedding
`subs.sort((a, b) => a.id - b.id)` (a stable comparison sort). -/
def sortById (l : List WRef) : List WRef :=
  List.insertionSort (fun a b => a.id ≤ b.id) l

instance : IsTotal WRef (fun a b => a.id ≤ b.id) :=
  ⟨fun a b => Nat.le_total a.id b.id⟩

instance : IsTrans WRef (fun a b => a.id ≤ b.id) :=
  ⟨fun _ _ _ h1 h2 => Nat.le_trans h1 h2⟩

/-- The snapshot `notify()` iterates over: the copied subscriber list,
sorted by id exactly when `dev && !async`. -/
def notifySnapshot (dev : Bool) (async : Bool) (subs : List WRef) : List WRef :=
  let snapshot := subs
  if dev && !async then sortById snapshot else snapshot

/-- Run `update()` over the snapshot in order, threading the live
subscriber list through the (arbitrary) effect of each update; returns
the final live list and the ids on which `update()` was invoked, in
invocation order. -/
def runUpdates (update : WRef → List WRef → List WRef) :
    List WRef → List WRef → List WRef × List Nat
  | [], live => (live, [])
  | w :: rest, live =>
      let r := runUpdates update rest (update w live)
      (r.1, w.id :: r.2)

/-- `Dep.notify()`: snapshot, conditional sort, then the update loop. -/
def depNotify (dev async : Bool) (subs : List WRef)
    (update : WRef → List WRef → List WRef) : List WRef × List Nat :=
  runUpdates update (notifySnapshot dev async subs) subs

/-! ### Watcher state

A `Watcher` carries its creation id, option flags, lifecycle flags, the
cached value, and the two generations of touched-Dep bookkeeping
(`deps`/`depIds` from the previous evaluation, `newDeps`/`newDepIds`
being filled during the current one).  Deps are embedded by their ids.

The surrounding mutable world a single watcher interacts with is
embedded as `Sys`: the watcher itself, for every dep the number of
occurrences of this watcher in that dep's `subs` array (`subCount`),
an instrumentation log of the `dep.addSub(this)` calls made during the
current evaluation (`addSubLog`), the number of times the watcher's
getter has been evaluated (`evalCount`), the global target stack and
`Dep.target`, the count of `handleError` invocations, and the owning
vm's `_watchers` list and `_isBeingDestroyed` flag. -/
structure Watcher where
  id : Nat
  deep : Bool
  user : Bool
  lazy : Bool
  sync : Bool
  dirty : Bool
  active : Bool
  value : Value
  deps : List Nat
  newDeps : List Nat
  depIds : List Nat
  newDepIds : List Nat

structure Sys where
  w : Watcher
  subCount : Nat → Nat
  addSubLog : List Nat
  evalCount : Nat
  stack : List (Option Nat)
  target : Option Nat
  handledErrors : Nat
  vmWatchers : List Nat
  vmDestroying : Bool

/-- `pushTarget(target)`: push onto the global stack and install as
`Dep.target`. -/
def pushTarget (s : Sys) (t : Option Nat) : Sys :=
  { s with stack := s.stack ++ [t], target := t }

/-- `popTarget()`: pop the global stack and re-install the new top as
`Dep.target` (`undefined`, i.e. `none`, when the stack is empty). -/
def popTarget (s : Sys) : Sys :=
  let st := s.stack.dropLast
  { s with stack := st, target := (st.getLast?).getD none }

/-- The fields of the world that `Watcher.addDep` can touch: the
previous-cycle id set (read only), the in-progress lists, the
subscriber multiplicities, and the `addSub` log. -/
structure DepTrack where
  depIds : List Nat
  newDeps : List Nat
  newDepIds : List Nat
  subCount : Nat → Nat
  addSubLog : List Nat

/-- `addDep(dep)`: if `dep.id` is not yet in `newDepIds`, record it in
`newDepIds` and `newDeps`; if additionally it is not in the
previous-cycle `depIds`, call `dep.addSub(this)` (one more occurrence of
this watcher in the dep's `subs`, and one log entry). -/
def Watcher.addDep (t : DepTrack) (d : Nat) : DepTrack :=
  if d ∈ t.newDepIds then t
  else
    let t' := { t with newDepIds := t.newDepIds ++ [d], newDeps := t.newDeps ++ [d] }
    if d ∈ t.depIds then t'
    else
      { t' with
        subCount := fun x => if x = d then t.subCount x + 1 else t.subCount x,
        addSubLog := t.addSubLog ++ [d] }

/-- The dependency-collection phase of an evaluation: every
`dep.depend()` that runs while this watcher is `Dep.target` delegates to
`Dep.target.addDep(dep)`; `touched` is the sequence of dep ids on which
this happened, in order. -/
def Watcher.collect (s : Sys) (touched : List Nat) : Sys :=
  let t0 : DepTrack :=
    { depIds := s.w.depIds, newDeps := s.w.newDeps, newDepIds := s.w.newDepIds,
      subCount := s.subCount, addSubLog := s.addSubLog }
  let t := touched.foldl Watcher.addDep t0
  { s with
    w := { s.w with newDeps := t.newDeps, newDepIds := t.newDepIds }
    subCount := t.subCount
    addSubLog := t.addSubLog }

/-- `dep.removeSub(this)` = `remove(dep.subs, this)`: removes one
occurrence of this watcher from dep `d`'s subscriber array (a no-op
when there is none). -/
def removeSubFrom (f : Nat → Nat) (d : Nat) : Nat → Nat :=
  fun x => if x = d then f x - 1 else f x

/-- `cleanupDeps()`: walk `deps` from the end; every dep not touched
this cycle loses this watcher's subscription; then swap the
generations: `depIds := newDepIds`, `deps := newDeps`, and clear the
`new` pair. -/
def Watcher.cleanupDeps (s : Sys) : Sys :=
  let sub' := s.w.deps.reverse.foldl
    (fun f d => if d ∈ s.w.newDepIds then f else removeSubFrom f d) s.subCount
  { s with
    subCount := sub'
    w := { s.w with
           depIds := s.w.newDepIds
           newDepIds := []
           deps := s.w.newDeps
           newDeps := [] } }

/-- The prologue of `get()`: reset the per-evaluation `addSub` log
(instrumentation), `pushTarget(this)`, and count one more getter
evaluation. -/
def Watcher.beginGet (s : Sys) : Sys :=
  let s0 := { s with addSubLog := [] }
  let s1 := pushTarget s0 (some s0.w.id)
  { s1 with evalCount := s1.evalCount + 1 }

/-- `get()`: push self as `Dep.target`; evaluate the getter
(`touched` is the trace of dep ids whose `depend()` ran while this
watcher was the target, the `deep`-mode `traverse(value)` touches
included, and `outcome` is the getter's result or the exception it
threw); on an exception, a `user` watcher routes it to `handleError`
and falls through with `value` still `undefined`, a non-`user` watcher
re-throws; in all cases the `finally` block pops the target stack and
runs `cleanupDeps`.  Returns the final world and the call's result
(`Except.error` = the exception propagating to the caller). -/
def Watcher.get (s : Sys) (touched : List Nat) (outcome : Except Nat Value) :
    Sys × Except Nat Value :=
  let s3 := Watcher.collect (Watcher.beginGet s) touched
  match outcome with
  | Except.ok v => (Watcher.cleanupDeps (popTarget s3), Except.ok v)
  | Except.error e =>
      if s3.w.user then
        (Watcher.cleanupDeps (popTarget { s3 with handledErrors := s3.handledErrors + 1 }),
          Except.ok Value.undefinedV)
      else
        (Watcher.cleanupDeps (popTarget s3), Except.error e)

/-- `run()`: only when `active`, re-evaluate via `get()`; fire the
callback exactly when `value !== this.value || isObject(value) || this.deep`,
storing the new value first; the callback receives
`(value, oldValue)`.  An exception escaping `get()` propagates out of
`run()` with no callback. -/
def Watcher.run (s : Sys) (touched : List Nat) (outcome : Except Nat Value) :
    Sys × Option (Value × Value) × Except Nat Unit :=
  if s.w.active then
    match Watcher.get s touched outcome with
    | (s1, Except.error e) => (s1, none, Except.error e)
    | (s1, Except.ok value) =>
        if !jsEq value s1.w.value || isObjectV value || s1.w.deep then
          ({ s1 with w := { s1.w with value := value } },
            some (value, s1.w.value), Except.ok ())
        else (s1, none, Except.ok ())
  else (s, none, Except.ok ())

/-- `update()`: `lazy` → just set `dirty`; `sync` → `run()` now;
otherwise `queueWatcher(this)` (the final `Bool` marks a hand-off to
the scheduler). -/
def Watcher.update (s : Sys) (touched : List Nat) (outcome : Except Nat Value) :
    Sys × Option (Value × Value) × Except Nat Unit × Bool :=
  if s.w.lazy then
    ({ s with w := { s.w with dirty := true } }, none, Except.ok (), false)
  else if s.w.sync then
    let (s', cb, r) := Watcher.run s touched outcome
    (s', cb, r, false)
  else (s, none, Except.ok (), true)

/-- `evaluate()` (lazy watchers only, on a successful evaluation):
`this.value = this.get(); this.dirty = false`. -/
def Watcher.evaluate (s : Sys) (touched : List Nat) (v : Value) : Sys :=
  let s1 := (Watcher.get s touched (Except.ok v)).1
  { s1 with w := { s1.w with value := v, dirty := false } }

/-- `teardown()`: only when `active`: remove self from `vm._watchers`
(skipped when the vm is being destroyed), remove self from every dep in
`deps` (walking from the end), and mark inactive. -/
def Watcher.teardown (s : Sys) : Sys :=
  if s.w.active then
    let vmW := if s.vmDestroying then s.vmWatchers else s.vmWatchers.erase s.w.id
    let sub' := s.w.deps.reverse.foldl removeSubFrom s.subCount
    { s with
      vmWatchers := vmW
      subCount := sub'
      w := { s.w with active := false } }
  else s

/-- The `Watcher` constructor: record the flags, `dirty := lazy`,
`active := true`, empty dep bookkeeping, push self onto `vm._watchers`,
and `value := lazy ? undefined : this.get()` — a lazy watcher performs
no initial evaluation. -/
def mkWatcherSys (id : Nat) (deep user lzy sync : Bool) (vmW : List Nat)
    (touched : List Nat) (getterVal : Value) : Sys :=
  let w0 : Watcher :=
    { id := id, deep := deep, user := user, lazy := lzy, sync := sync,
      dirty := lzy, active := true, value := Value.undefinedV,
      deps := [], newDeps := [], depIds := [], newDepIds := [] }
  let s0 : Sys :=
    { w := w0, subCount := fun _ => 0, addSubLog := [], evalCount := 0,
      stack := [], target := none, handledErrors := 0,
      vmWatchers := vmW ++ [id], vmDestroying := false }
  if lzy then s0
  else
    let s1 := (Watcher.get s0 touched (Except.ok getterVal)).1
    { s1 with w := { s1.w with value := getterVal } }

/-- The per-watcher subscription invariant that every quiescent state of
the system satisfies: the previous-cycle lists agree (`deps` holds
exactly the deps whose ids are in `depIds`, in the same order, without
duplicates), no evaluation is in progress (`new` pair empty), and the
watcher occurs in a dep's subscriber array exactly once for deps of the
current set and never otherwise. -/
def depInv (s : Sys) : Prop :=
  s.w.deps = s.w.depIds ∧ s.w.depIds.Nodup ∧
  s.w.newDeps = [] ∧ s.w.newDepIds = [] ∧
  (∀ d, s.subCount d = if d ∈ s.w.depIds then 1 else 0)

/-! ### Characterization of the collection and cleanup phases -/

theorem foldl_addDep_char (ts : List Nat) : ∀ (t : DepTrack),
    t.newDeps = t.newDepIds → t.newDepIds.Nodup →
    (ts.foldl Watcher.addDep t).depIds = t.depIds ∧
    (ts.foldl Watcher.addDep t).newDeps = (ts.foldl Watcher.addDep t).newDepIds ∧
    (ts.foldl Watcher.addDep t).newDepIds.Nodup ∧
    (∀ d, d ∈ (ts.foldl Watcher.addDep t).newDepIds ↔ (d ∈ ts ∨ d ∈ t.newDepIds)) ∧
    (∀ d, (ts.foldl Watcher.addDep t).subCount d =
      if d ∈ ts ∧ d ∉ t.newDepIds ∧ d ∉ t.depIds then t.subCount d + 1 else t.subCount d) ∧
    (∀ d, d ∈ (ts.foldl Watcher.addDep t).addSubLog ↔
      (d ∈ t.addSubLog ∨ (d ∈ ts ∧ d ∉ t.newDepIds ∧ d ∉ t.depIds))) := by
  induction ts with
  | nil =>
      intro t h1 h2
      exact ⟨rfl, h1, h2, by simp, by simp, by simp⟩
  | cons a rest ih =>
      intro t h1 h2
      rw [List.foldl_cons]
      by_cases ha : a ∈ t.newDepIds
      · have hstep : Watcher.addDep t a = t := by simp [Watcher.addDep, ha]
        rw [hstep]
        obtain ⟨e1, e2, e3, e4, e5, e6⟩ := ih t h1 h2
        refine ⟨e1, e2, e3, ?_, ?_, ?_⟩
        · intro d
          rw [e4 d, List.mem_cons]
          constructor
          · rintro (hd | hd)
            · exact Or.inl (Or.inr hd)
            · exact Or.inr hd
          · rintro ((rfl | hd) | hd)
            · exact Or.inr ha
            · exact Or.inl hd
            · exact Or.inr hd
        · intro d
          rw [e5 d]
          refine if_congr ?_ rfl rfl
          rw [List.mem_cons]
          constructor
          · rintro ⟨hd, hp⟩
            exact ⟨Or.inr hd, hp⟩
          · rintro ⟨(rfl | hd), hp⟩
            · exact absurd ha hp.1
            · exact ⟨hd, hp⟩
        · intro d
          rw [e6 d, List.mem_cons]
          constructor
          · rintro (hd | ⟨hd, hp⟩)
            · exact Or.inl hd
            · exact Or.inr ⟨Or.inr hd, hp⟩
          · rintro (hd | ⟨(rfl | hd), hp⟩)
            · exact Or.inl hd
            · exact absurd ha hp.1
            · exact Or.inr ⟨hd, hp⟩
      · by_cases hb : a ∈ t.depIds
        · obtain ⟨e1, e2, e3, e4, e5, e6⟩ := ih (Watcher.addDep t a)
            (by simp [Watcher.addDep, ha, hb, h1])
            (by simp [Watcher.addDep, ha, hb, List.nodup_append, h2])
          refine ⟨?_, e2, e3, ?_, ?_, ?_⟩
          · rw [e1]; simp [Watcher.addDep, ha, hb]
          · intro d
            rw [e4 d]
            simp only [Watcher.addDep, if_neg ha, if_pos hb, List.mem_append,
              List.mem_singleton, List.mem_cons, List.not_mem_nil, or_false]
            constructor
            · rintro (hd | (hd | rfl))
              · exact Or.inl (Or.inr hd)
              · exact Or.inr hd
              · exact Or.inl (Or.inl rfl)
            · rintro ((rfl | hd) | hd)
              · exact Or.inr (Or.inr rfl)
              · exact Or.inl hd
              · exact Or.inr (Or.inl hd)
          · intro d
            rw [e5 d]
            simp only [Watcher.addDep, if_neg ha, if_pos hb, List.mem_append,
              List.mem_singleton, List.mem_cons, List.not_mem_nil, or_false]
            refine if_congr ?_ rfl rfl
            constructor
            · rintro ⟨hd, hp1, hp2⟩
              exact ⟨Or.inr hd, fun hn => hp1 (Or.inl hn), hp2⟩
            · rintro ⟨(rfl | hd), hp1, hp2⟩
              · exact absurd hb hp2
              · refine ⟨hd, ?_, hp2⟩
                rintro (hn | rfl)
                · exact hp1 hn
                · exact hp2 hb
          · intro d
            rw [e6 d]
            simp only [Watcher.addDep, if_neg ha, if_pos hb, List.mem_append,
              List.mem_singleton, List.mem_cons, List.not_mem_nil, or_false]
            constructor
            · rintro (hd | ⟨hd, hp1, hp2⟩)
              · exact Or.inl hd
              · exact Or.inr ⟨Or.inr hd, fun hn => hp1 (Or.inl hn), hp2⟩
            · rintro (hd | ⟨(rfl | hd), hp1, hp2⟩)
              · exact Or.inl hd
              · exact absurd hb hp2
              · refine Or.inr ⟨hd, ?_, hp2⟩
                rintro (hn | rfl)
                · exact hp1 hn
                · exact hp2 hb
        · obtain ⟨e1, e2, e3, e4, e5, e6⟩ := ih (Watcher.addDep t a)
            (by simp [Watcher.addDep, ha, hb, h1])
            (by simp [Watcher.addDep, ha, hb, List.nodup_append, h2])
          refine ⟨?_, e2, e3, ?_, ?_, ?_⟩
          · rw [e1]; simp [Watcher.addDep, ha, hb]
          · intro d
            rw [e4 d]
            simp only [Watcher.addDep, if_neg ha, if_neg hb, List.mem_append,
              List.mem_singleton, List.mem_cons, List.not_mem_nil, or_false]
            constructor
            · rintro (hd | (hd | rfl))
              · exact Or.inl (Or.inr hd)
              · exact Or.inr hd
              · exact Or.inl (Or.inl rfl)
            · rintro ((rfl | hd) | hd)
              · exact Or.inr (Or.inr rfl)
              · exact Or.inl hd
              · exact Or.inr (Or.inl hd)
          · intro d
            rw [e5 d]
            simp only [Watcher.addDep, if_neg ha, if_neg hb, List.mem_append,
              List.mem_singleton, List.mem_cons, List.not_mem_nil, or_false]
            by_cases hda : d = a
            · subst hda
              rw [if_neg (by rintro ⟨_, hp1, _⟩; exact hp1 (Or.inr rfl)),
                if_pos rfl, if_pos ⟨Or.inl rfl, ha, hb⟩]
            · rw [if_neg hda]
              refine if_congr ?_ rfl rfl
              constructor
              · rintro ⟨hd, hp1, hp2⟩
                exact ⟨Or.inr hd, fun hn => hp1 (Or.inl hn), hp2⟩
              · rintro ⟨(rfl | hd), hp1, hp2⟩
                · exact absurd rfl hda
                · refine ⟨hd, ?_, hp2⟩
                  rintro (hn | rfl)
                  · exact hp1 hn
                  · exact hda rfl
          · intro d
            rw [e6 d]
            simp only [Watcher.addDep, if_neg ha, if_neg hb, List.mem_append,
              List.mem_singleton, List.mem_cons, List.not_mem_nil, or_false]
            constructor
            · rintro ((hd | rfl) | ⟨hd, hp1, hp2⟩)
              · exact Or.inl hd
              · exact Or.inr ⟨Or.inl rfl, ha, hb⟩
              · exact Or.inr ⟨Or.inr hd, fun hn => hp1 (Or.inl hn), hp2⟩
            · rintro (hd | ⟨(rfl | hd), hp1, hp2⟩)
              · exact Or.inl (Or.inl hd)
              · exact Or.inl (Or.inr rfl)
              · by_cases hda : d = a
                · exact Or.inl (Or.inr hda)
                · refine Or.inr ⟨hd, ?_, hp2⟩
                  rintro (hn | rfl)
                  · exact hp1 hn
                  · exact hda rfl

theorem foldl_removeKeep_char (keep : List Nat) (l : List Nat) :
    ∀ (g : Nat → Nat), l.Nodup →
    ∀ x, (l.foldl (fun f d => if d ∈ keep then f else removeSubFrom f d) g) x
      = if x ∈ l ∧ x ∉ keep then g x - 1 else g x := by
  induction l with
  | nil => intro g _ x; simp
  | cons a rest ih =>
      intro g hnd x
      rw [List.foldl_cons]
      have ha : a ∉ rest := (List.nodup_cons.mp hnd).1
      rw [ih _ (List.nodup_cons.mp hnd).2 x]
      by_cases hxa : x = a
      · subst hxa
        by_cases hk : x ∈ keep <;>
          simp [hk, ha, removeSubFrom, List.mem_cons]
      · by_cases hk2 : a ∈ keep <;> by_cases hx : x ∈ rest <;>
          simp [hk2, hx, hxa, removeSubFrom, List.mem_cons]

theorem foldl_removeAll_char (l : List Nat) :
    ∀ (g : Nat → Nat), l.Nodup →
    ∀ x, (l.foldl removeSubFrom g) x = if x ∈ l then g x - 1 else g x := by
  induction l with
  | nil => intro g _ x; simp
  | cons a rest ih =>
      intro g hnd x
      rw [List.foldl_cons]
      have ha : a ∉ rest := (List.nodup_cons.mp hnd).1
      rw [ih _ (List.nodup_cons.mp hnd).2 x]
      by_cases hxa : x = a
      · subst hxa
        simp [ha, removeSubFrom, List.mem_cons]
      · by_cases hx : x ∈ rest <;>
          simp [hx, hxa, removeSubFrom, List.mem_cons]

theorem collect_char (s : Sys) (touched : List Nat)
    (hne : s.w.newDeps = []) (hni : s.w.newDepIds = []) :
    (Watcher.collect s touched).w.newDeps = (Watcher.collect s touched).w.newDepIds ∧
    (Watcher.collect s touched).w.newDepIds.Nodup ∧
    (∀ d, d ∈ (Watcher.collect s touched).w.newDepIds ↔ d ∈ touched) ∧
    (∀ d, (Watcher.collect s touched).subCount d =
      if d ∈ touched ∧ d ∉ s.w.depIds then s.subCount d + 1 else s.subCount d) ∧
    (∀ d, d ∈ (Watcher.collect s touched).addSubLog ↔
      (d ∈ s.addSubLog ∨ (d ∈ touched ∧ d ∉ s.w.depIds))) := by
  obtain ⟨e1, e2, e3, e4, e5, e6⟩ := foldl_addDep_char touched
    { depIds := s.w.depIds, newDeps := s.w.newDeps, newDepIds := s.w.newDepIds,
      subCount := s.subCount, addSubLog := s.addSubLog }
    (by simpa [hne] using hni.symm) (by simp [hni])
  refine ⟨e2, e3, ?_, ?_, ?_⟩
  · intro d
    show d ∈ (List.foldl Watcher.addDep
      { depIds := s.w.depIds, newDeps := s.w.newDeps, newDepIds := s.w.newDepIds,
        subCount := s.subCount, addSubLog := s.addSubLog } touched).newDepIds ↔ d ∈ touched
    rw [e4 d]
    simp [hni]
  · intro d
    show (List.foldl Watcher.addDep
      { depIds := s.w.depIds, newDeps := s.w.newDeps, newDepIds := s.w.newDepIds,
        subCount := s.subCount, addSubLog := s.addSubLog } touched).subCount d
      = if d ∈ touched ∧ d ∉ s.w.depIds then s.subCount d + 1 else s.subCount d
    rw [e5 d]
    simp [hni]
  · intro d
    show d ∈ (List.foldl Watcher.addDep
      { depIds := s.w.depIds, newDeps := s.w.newDeps, newDepIds := s.w.newDepIds,
        subCount := s.subCount, addSubLog := s.addSubLog } touched).addSubLog
      ↔ (d ∈ s.addSubLog ∨ (d ∈ touched ∧ d ∉ s.w.depIds))
    rw [e6 d]
    simp [hni]

theorem finish_char (x : Sys) (D T : List Nat)
    (hxdeps : x.w.deps = D) (hDnd : D.Nodup)
    (hlock : x.w.newDeps = x.w.newDepIds)
    (hxnd : x.w.newDepIds.Nodup)
    (hxmem : ∀ d, d ∈ x.w.newDepIds ↔ d ∈ T)
    (hxsub : ∀ d, x.subCount d = if d ∈ D ∨ d ∈ T then 1 else 0) :
    (∀ d, d ∈ (Watcher.cleanupDeps (popTarget x)).w.depIds ↔ d ∈ T) ∧
    (∀ d, d ∈ (Watcher.cleanupDeps (popTarget x)).w.deps ↔ d ∈ T) ∧
    (∀ d, (Watcher.cleanupDeps (popTarget x)).subCount d = if d ∈ T then 1 else 0) ∧
    (Watcher.cleanupDeps (popTarget x)).addSubLog = x.addSubLog ∧
    (Watcher.cleanupDeps (popTarget x)).stack = x.stack.dropLast ∧
    (Watcher.cleanupDeps (popTarget x)).target = ((x.stack.dropLast).getLast?).getD none ∧
    depInv (Watcher.cleanupDeps (popTarget x)) := by
  have hsub : ∀ d, (Watcher.cleanupDeps (popTarget x)).subCount d
      = if d ∈ T then 1 else 0 := by
    intro d
    show (x.w.deps.reverse.foldl
      (fun f d => if d ∈ x.w.newDepIds then f else removeSubFrom f d) x.subCount) d
      = if d ∈ T then 1 else 0
    rw [foldl_removeKeep_char x.w.newDepIds x.w.deps.reverse x.subCount
      (by rw [hxdeps]; exact List.nodup_reverse.mpr hDnd) d]
    rw [hxdeps, hxsub d]
    by_cases hT : d ∈ T
    · have : d ∈ x.w.newDepIds := (hxmem d).mpr hT
      simp [hT, this]
    · have : d ∉ x.w.newDepIds := fun hc => hT ((hxmem d).mp hc)
      by_cases hD : d ∈ D <;> simp [hT, hD, this, List.mem_reverse]
  refine ⟨?_, ?_, hsub, rfl, rfl, rfl, ?_⟩
  · intro d
    exact hxmem d
  · intro d
    show d ∈ x.w.newDeps ↔ d ∈ T
    rw [hlock]
    exact hxmem d
  · refine ⟨?_, ?_, rfl, rfl, ?_⟩
    · show x.w.newDeps = x.w.newDepIds
      exact hlock
    · show x.w.newDepIds.Nodup
      exact hxnd
    · intro d
      rw [hsub d]
      refine if_congr ?_ rfl rfl
      exact (hxmem d).symm

/-- What a successful `get()` guarantees, starting from a state
satisfying the subscription invariant: the new dep sets agree exactly
with the touched trace, the subscriber multiplicities follow, `addSub`
ran exactly for the touched deps not already subscribed last cycle, the
invariant is re-established, and the target stack discipline is
restored. -/
theorem get_ok_facts (s : Sys) (touched : List Nat) (v : Value) (hinv : depInv s) :
    (∀ d, d ∈ (Watcher.get s touched (Except.ok v)).1.w.depIds ↔ d ∈ touched) ∧
    (∀ d, d ∈ (Watcher.get s touched (Except.ok v)).1.w.deps ↔ d ∈ touched) ∧
    (∀ d, (Watcher.get s touched (Except.ok v)).1.subCount d = if d ∈ touched then 1 else 0) ∧
    (∀ d, d ∈ (Watcher.get s touched (Except.ok v)).1.addSubLog ↔
      (d ∈ touched ∧ d ∉ s.w.depIds)) ∧
    depInv (Watcher.get s touched (Except.ok v)).1 ∧
    (Watcher.get s touched (Except.ok v)).1.stack = s.stack ∧
    (Watcher.get s touched (Except.ok v)).1.target = (s.stack.getLast?).getD none := by
  obtain ⟨hde, hnd, hne, hni, hsc⟩ := hinv
  obtain ⟨hlock, hxnd, hxmem, hxsub0, hxlog0⟩ :=
    collect_char (Watcher.beginGet s) touched hne hni
  have hbsub : (Watcher.beginGet s).subCount = s.subCount := rfl
  have hbdep : (Watcher.beginGet s).w.depIds = s.w.depIds := rfl
  have hblog : (Watcher.beginGet s).addSubLog = [] := rfl
  simp only [hbsub, hbdep, hblog] at hxsub0 hxlog0
  have hxsub : ∀ d, (Watcher.collect (Watcher.beginGet s) touched).subCount d
      = if d ∈ s.w.depIds ∨ d ∈ touched then 1 else 0 := by
    intro d
    rw [hxsub0 d]
    by_cases hD : d ∈ s.w.depIds <;> by_cases hT : d ∈ touched <;>
      simp [hD, hT, hsc d]
  obtain ⟨hf1, hf2, hf3, hf4, hf5, hf6, hf7⟩ := finish_char
    (Watcher.collect (Watcher.beginGet s) touched)
    s.w.depIds touched hde hnd hlock hxnd hxmem hxsub
  have hxstack : (Watcher.collect (Watcher.beginGet s) touched).stack
      = s.stack ++ [some s.w.id] := rfl
  have hlog : ∀ d, d ∈ (Watcher.get s touched (Except.ok v)).1.addSubLog ↔
      (d ∈ touched ∧ d ∉ s.w.depIds) := by
    intro d
    show d ∈ (Watcher.cleanupDeps (popTarget
      (Watcher.collect (Watcher.beginGet s) touched))).addSubLog ↔ _
    rw [hf4, hxlog0 d]
    simp
  refine ⟨hf1, hf2, hf3, hlog, hf7, ?_, ?_⟩
  · show (Watcher.cleanupDeps (popTarget
      (Watcher.collect (Watcher.beginGet s) touched))).stack = s.stack
    rw [hf5, hxstack, List.dropLast_concat]
  · show (Watcher.cleanupDeps (popTarget
      (Watcher.collect (Watcher.beginGet s) touched))).target = _
    rw [hf6, hxstack, List.dropLast_concat]

/-- What a throwing `get()` guarantees: the dep-set reconciliation and
the target-stack restoration still happen (the `finally` block runs),
and the exception is routed to `handleError` with `undefined` returned
for a `user` watcher, re-thrown for a non-`user` one. -/
theorem get_error_facts (s : Sys) (touched : List Nat) (e : Nat) (hinv : depInv s) :
    (∀ d, d ∈ (Watcher.get s touched (Except.error e)).1.w.depIds ↔ d ∈ touched) ∧
    depInv (Watcher.get s touched (Except.error e)).1 ∧
    (Watcher.get s touched (Except.error e)).1.stack = s.stack ∧
    (Watcher.get s touched (Except.error e)).1.target = (s.stack.getLast?).getD none ∧
    (s.w.user = true →
      (Watcher.get s touched (Except.error e)).2 = Except.ok Value.undefinedV ∧
      (Watcher.get s touched (Except.error e)).1.handledErrors = s.handledErrors + 1) ∧
    (s.w.user = false →
      (Watcher.get s touched (Except.error e)).2 = Except.error e ∧
      (Watcher.get s touched (Except.error e)).1.handledErrors = s.handledErrors) := by
  obtain ⟨hde, hnd, hne, hni, hsc⟩ := hinv
  obtain ⟨hlock, hxnd, hxmem, hxsub0, hxlog0⟩ :=
    collect_char (Watcher.beginGet s) touched hne hni
  have hbsub : (Watcher.beginGet s).subCount = s.subCount := rfl
  have hbdep : (Watcher.beginGet s).w.depIds = s.w.depIds := rfl
  have hblog : (Watcher.beginGet s).addSubLog = [] := rfl
  simp only [hbsub, hbdep, hblog] at hxsub0 hxlog0
  have hxsub : ∀ d, (Watcher.collect (Watcher.beginGet s) touched).subCount d
      = if d ∈ s.w.depIds ∨ d ∈ touched then 1 else 0 := by
    intro d
    rw [hxsub0 d]
    by_cases hD : d ∈ s.w.depIds <;> by_cases hT : d ∈ touched <;>
      simp [hD, hT, hsc d]
  have hxstack : (Watcher.collect (Watcher.beginGet s) touched).stack
      = s.stack ++ [some s.w.id] := rfl
  have hget : Watcher.get s touched (Except.error e) =
      if s.w.user then
        (Watcher.cleanupDeps (popTarget
          { Watcher.collect (Watcher.beginGet s) touched with
            handledErrors := s.handledErrors + 1 }),
          Except.ok Value.undefinedV)
      else
        (Watcher.cleanupDeps (popTarget
          (Watcher.collect (Watcher.beginGet s) touched)),
          Except.error e) := rfl
  by_cases hu : s.w.user = true
  · obtain ⟨hf1, hf2, hf3, hf4, hf5, hf6, hf7⟩ := finish_char
      { Watcher.collect (Watcher.beginGet s) touched with
        handledErrors := s.handledErrors + 1 }
      s.w.depIds touched hde hnd hlock hxnd hxmem hxsub
    rw [hget, if_pos hu]
    refine ⟨hf1, hf7, ?_, ?_, fun _ => ⟨rfl, rfl⟩, fun hfa => ?_⟩
    · rw [hf5]
      show ((Watcher.collect (Watcher.beginGet s) touched).stack).dropLast = _
      rw [hxstack, List.dropLast_concat]
    · rw [hf6]
      show (((Watcher.collect (Watcher.beginGet s) touched).stack).dropLast.getLast?).getD
        none = _
      rw [hxstack, List.dropLast_concat]
    · rw [hu] at hfa
      cases hfa
  · obtain ⟨hf1, hf2, hf3, hf4, hf5, hf6, hf7⟩ := finish_char
      (Watcher.collect (Watcher.beginGet s) touched)
      s.w.depIds touched hde hnd hlock hxnd hxmem hxsub
    rw [hget, if_neg hu]
    refine ⟨hf1, hf7, ?_, ?_, fun htr => absurd htr hu, fun _ => ⟨rfl, rfl⟩⟩
    · rw [hf5, hxstack, List.dropLast_concat]
    · rw [hf6, hxstack, List.dropLast_concat]

/-! ### `observe` -/

/-- What `observe` inspects about an object value: its `__ob__`
back-reference (the id of the attached Observer, if any), whether it is
a `VNode`, its `_isVue` flag, whether it is a plain object or an array,
and whether it is extensible. -/
structure ObsObj where
  hasOb : Option Nat
  isVNode : Bool
  isVue : Bool
  plainOrArray : Bool
  extensible : Bool
deriving DecidableEq, Repr

/-- An argument to `observe`: a primitive (fails `isObject`) or an
object. -/
inductive JsVal where
  | prim (v : Value)
  | objref (o : ObsObj)
deriving DecidableEq, Repr

/-- The world `observe` acts on: a supply of fresh Observer ids, the
log of Observers that were ever constructed, and each Observer's
`vmCount`. -/
structure ObsState where
  nextOb : Nat
  createdObs : List Nat
  vmCount : Nat → Nat

def bumpVmCount (st : ObsState) (i : Nat) : ObsState :=
  { st with vmCount := fun x => if x = i then st.vmCount x + 1 else st.vmCount x }

/-- `observe(value, asRootData)`: returns nothing for non-objects and
`VNode`s; returns the existing Observer when `value.__ob__` is one;
otherwise constructs a new Observer (attaching it as `value.__ob__`)
when `shouldObserve`, not server rendering, `value` is a plain object
or array, extensible, and not a Vue instance; in either successful case
`vmCount` is incremented when `asRootData`.  Returns the new world, the
value (with its possibly updated `__ob__`), and the returned Observer
id (`none` embeds JS `undefined`). -/
def observe (shouldObs : Bool) (ssr : Bool) (st : ObsState) (v : JsVal)
    (asRootData : Bool) : ObsState × JsVal × Option Nat :=
  match v with
  | JsVal.prim _ => (st, v, none)
  | JsVal.objref o =>
      if o.isVNode then (st, v, none)
      else
        match o.hasOb with
        | some i =>
            (if asRootData then bumpVmCount st i else st, v, some i)
        | none =>
            if shouldObs && !ssr && o.plainOrArray && o.extensible && !o.isVue then
              let i := st.nextOb
              let st1 := { st with nextOb := st.nextOb + 1, createdObs := st.createdObs ++ [i] }
              (if asRootData then bumpVmCount st1 i else st1,
                JsVal.objref { o with hasOb := some i }, some i)
            else (st, v, none)

/-! ### The claims -/

/-- Concrete root-`$data` object for claim C1: empty, observed, with
`vmCount = 1` (it is the root `$data` of one vm). -/
def rootObjEx : PlainObj :=
  { fields := [], ob := some { vmCount := 1 }, isVue := false }

/-- Claim C1, counterexample: on an object that is the root `$data` of
one owner (`vmCount = 1`) and a key not present, `set` (dev build)
warns — but, contrary to the claim, the write does NOT succeed: the key
is still absent afterwards (`set` returns early without storing). -/
theorem C1_set_root_write_succeeds_cex :
    (vueSetObj true rootObjEx "b" (Value.numV 5)).2.2.warned = true ∧
    ((vueSetObj true rootObjEx "b" (Value.numV 5)).1.fields.lookup "b") = none :=
  ⟨rfl, rfl⟩

/-- Claim C1, amended: for every object that is the root `$data` of at
least one owner (its Observer's `vmCount > 0`) and every key not
already present on it, `set(target, key, value)` emits a warning (in
non-production builds) and drops the write entirely: the target is left
unchanged (no new key, no reactivity wiring, no notification), and
`set` returns `value`. -/
theorem C1_set_root_new_key_warns_drops (dev : Bool) (o : PlainObj) (key : String)
    (v : Value) (i : ObInfo) (hob : o.ob = some i) (hvm : 0 < i.vmCount)
    (hvue : o.isVue = false) (habs : o.fields.lookup key = none) :
    vueSetObj dev o key v = (o, v, { warned := dev, notified := false, wired := false }) := by
  unfold vueSetObj
  rw [habs, hob, hvue]
  simp [Nat.pos_iff_ne_zero.mp hvm]

/-- Witness for C1: the amended statement evaluated on `rootObjEx`. -/
theorem C1_set_root_new_key_warns_drops_witness :
    rootObjEx.ob = some { vmCount := 1 } ∧ 0 < (1 : Nat) ∧
    rootObjEx.isVue = false ∧ rootObjEx.fields.lookup "b" = none ∧
    vueSetObj true rootObjEx "b" (Value.numV 5) =
      (rootObjEx, Value.numV 5, { warned := true, notified := false, wired := false }) :=
  ⟨rfl, by decide, rfl, rfl,
    C1_set_root_new_key_warns_drops true rootObjEx "b" (Value.numV 5)
      { vmCount := 1 } rfl (by decide) rfl rfl⟩

/-- Claim C2: at the end of every `get()`, the watcher's current dep
set (`deps` / `depIds`) equals exactly the set of deps whose `depend()`
ran while this watcher was the active collector during that evaluation
(`touched`); the watcher sits in the subscriber list of exactly those
deps, exactly once each, and of no others; and `addSub` was called
during the evaluation exactly for the touched deps that were not
already subscribed in the previous cycle — a dep subscribed last cycle
is not re-subscribed. -/
theorem C2_get_dep_reconciliation (s : Sys) (touched : List Nat) (v : Value)
    (hinv : depInv s) :
    (∀ d, d ∈ (Watcher.get s touched (Except.ok v)).1.w.depIds ↔ d ∈ touched) ∧
    (∀ d, d ∈ (Watcher.get s touched (Except.ok v)).1.w.deps ↔ d ∈ touched) ∧
    (∀ d, (Watcher.get s touched (Except.ok v)).1.subCount d
      = if d ∈ touched then 1 else 0) ∧
    (∀ d, d ∈ (Watcher.get s touched (Except.ok v)).1.addSubLog ↔
      (d ∈ touched ∧ d ∉ s.w.depIds)) := by
  obtain ⟨h1, h2, h3, h4, _, _, _⟩ := get_ok_facts s touched v hinv
  exact ⟨h1, h2, h3, h4⟩

/-- Concrete quiescent watcher world (a freshly constructed lazy
watcher: empty dep sets, subscribed nowhere). -/
def sysEx : Sys := mkWatcherSys 1 false false true false [] [] Value.undefinedV

theorem sysEx_inv : depInv sysEx := by
  refine ⟨rfl, List.nodup_nil, rfl, rfl, ?_⟩
  intro d
  simp [sysEx, mkWatcherSys]

/-- Witness for C2: the reconciliation applied to a concrete watcher
state and the concrete touch trace `[5]`. -/
theorem C2_get_dep_reconciliation_witness :
    depInv sysEx ∧
    ((∀ d, d ∈ (Watcher.get sysEx [5] (Except.ok (Value.numV 2))).1.w.depIds ↔ d ∈ [5]) ∧
     (∀ d, d ∈ (Watcher.get sysEx [5] (Except.ok (Value.numV 2))).1.w.deps ↔ d ∈ [5]) ∧
     (∀ d, (Watcher.get sysEx [5] (Except.ok (Value.numV 2))).1.subCount d
       = if d ∈ [5] then 1 else 0) ∧
     (∀ d, d ∈ (Watcher.get sysEx [5] (Except.ok (Value.numV 2))).1.addSubLog ↔
       (d ∈ [5] ∧ d ∉ sysEx.w.depIds))) :=
  ⟨sysEx_inv, C2_get_dep_reconciliation sysEx [5] (Value.numV 2) sysEx_inv⟩

/-- Claim C3: for an active watcher, `run()` re-evaluates via `get()`
(one more getter evaluation) and invokes the callback iff the new value
differs from the cached value under strict equality, or the new value
is an object, or `deep` is set; when it fires, the cached value has
been updated to the new value and the callback receives
`(newValue, oldValue)`; when it does not fire, the cached value is
unchanged. -/
theorem C3_run_callback (s : Sys) (touched : List Nat) (v : Value)
    (hact : s.w.active = true) :
    ((Watcher.run s touched (Except.ok v)).2.1 = some (v, s.w.value) ↔
      (jsEq v s.w.value = false ∨ isObjectV v = true ∨ s.w.deep = true)) ∧
    ((jsEq v s.w.value = false ∨ isObjectV v = true ∨ s.w.deep = true) →
      (Watcher.run s touched (Except.ok v)).1.w.value = v) ∧
    (¬(jsEq v s.w.value = false ∨ isObjectV v = true ∨ s.w.deep = true) →
      (Watcher.run s touched (Except.ok v)).2.1 = none ∧
      (Watcher.run s touched (Except.ok v)).1.w.value = s.w.value) ∧
    (Watcher.run s touched (Except.ok v)).1.evalCount = s.evalCount + 1 := by
  have hrun : Watcher.run s touched (Except.ok v) =
      if s.w.active then
        (if !jsEq v s.w.value || isObjectV v || s.w.deep then
          ({ (Watcher.get s touched (Except.ok v)).1 with
             w := { (Watcher.get s touched (Except.ok v)).1.w with value := v } },
            some (v, s.w.value), Except.ok ())
        else ((Watcher.get s touched (Except.ok v)).1, none, Except.ok ()))
      else (s, none, Except.ok ()) := rfl
  have hbool : ((!jsEq v s.w.value || isObjectV v || s.w.deep) = true) ↔
      (jsEq v s.w.value = false ∨ isObjectV v = true ∨ s.w.deep = true) := by
    simp [Bool.or_eq_true, Bool.not_eq_true', or_assoc]
  rw [hrun, if_pos hact]
  by_cases hc : (!jsEq v s.w.value || isObjectV v || s.w.deep) = true
  · rw [if_pos hc]
    refine ⟨⟨fun _ => hbool.mp hc, fun _ => rfl⟩, fun _ => rfl, ?_, rfl⟩
    intro hno
    exact absurd (hbool.mp hc) hno
  · rw [if_neg hc]
    have hno : ¬(jsEq v s.w.value = false ∨ isObjectV v = true ∨ s.w.deep = true) :=
      fun hd => hc (hbool.mpr hd)
    refine ⟨⟨fun he => absurd he (by simp), fun hd => absurd hd hno⟩, ?_, fun _ => ⟨rfl, rfl⟩, rfl⟩
    intro hd
    exact absurd hd hno

/-- Concrete end-to-end watcher for C3: active, cached value `1` (as
after watching `o.a` with `o = ⟨a: 1⟩`). -/
def runSysEx : Sys := mkWatcherSys 2 false false false false [] [] (Value.numV 1)

/-- Witness for C3, which is also the spec's end-to-end example: after
`o.a = 2`, `run()` fires the callback with `(2, 1)`. -/
theorem C3_run_callback_witness :
    runSysEx.w.active = true ∧
    (Watcher.run runSysEx [] (Except.ok (Value.numV 2))).2.1
      = some (Value.numV 2, Value.numV 1) :=
  ⟨rfl, ((C3_run_callback runSysEx [] (Value.numV 2) rfl).1).mpr (Or.inl rfl)⟩

/-- Claim C4: every intercepted array mutator runs the original method
first and returns exactly its return value (for any behavior of the
built-in, and in particular for the `push`/`pop` built-ins spelled
out); `push` and `unshift` treat all arguments as inserted, `splice`
treats the arguments past the removal-count argument as inserted, the
other four insert nothing; `observeArray` receives exactly the inserted
elements; and the container Observer's dep is notified on every
intercepted call. -/
theorem C4_array_mutator {α : Type} (method : ArrMethod)
    (original : List Value → List Value → List Value × α)
    (elems args : List Value) :
    ((arrayMutator method original elems args).1 = original elems args) ∧
    ((arrayMutator method original elems args).2.notified = true) ∧
    ((arrayMutator method original elems args).2.observedInserted =
      match method with
      | ArrMethod.push => some args
      | ArrMethod.unshift => some args
      | ArrMethod.splice => some (args.drop 2)
      | _ => none) ∧
    ((arrayMutator ArrMethod.push jsPush elems args).1
      = (elems ++ args, Value.numV (elems.length + args.length))) ∧
    ((arrayMutator ArrMethod.pop jsPop elems args).1
      = (elems.dropLast, (elems.getLast?).getD Value.undefinedV)) :=
  ⟨rfl, rfl, rfl, rfl, rfl⟩

/-- Claim C5: a reactive setter write that is strictly equal to the
current value, or where both the new and the current value are `NaN`,
leaves the stored value unchanged and triggers no notification (and no
re-observation); and with a pre-existing getter but no setter, every
write is silently dropped the same way. -/
theorem C5_reactive_setter_noop (getterVal : Option Value) (hasSetter shallow : Bool)
    (val newVal : Value)
    (h : jsEq newVal (getterVal.getD val) = true ∨
      (newVal = Value.nanV ∧ getterVal.getD val = Value.nanV) ∨
      (getterVal.isSome = true ∧ hasSetter = false)) :
    reactiveSetter getterVal hasSetter shallow val newVal =
      { val := val, notified := false, reobserved := false } := by
  rcases h with h | ⟨h1, h2⟩ | ⟨h1, h2⟩
  · simp [reactiveSetter, h]
  · simp [reactiveSetter, h1, h2, jsEq]
  · by_cases hc : (jsEq newVal (getterVal.getD val) ||
        (!jsEq newVal newVal && !jsEq (getterVal.getD val) (getterVal.getD val))) = true
    · simp only [reactiveSetter, hc, if_true]
    · simp [reactiveSetter, hc, h1, h2]

/-- Witness for C5: writing `1` over a current value of `1` is a no-op
without notification. -/
theorem C5_reactive_setter_noop_witness :
    (jsEq (Value.numV 1) ((none : Option Value).getD (Value.numV 1)) = true ∨
      (Value.numV 1 = Value.nanV ∧
        (none : Option Value).getD (Value.numV 1) = Value.nanV) ∨
      ((none : Option Value).isSome = true ∧ false = false)) ∧
    reactiveSetter none false false (Value.numV 1) (Value.numV 1) =
      { val := Value.numV 1, notified := false, reobserved := false } :=
  ⟨Or.inl (by decide),
    C5_reactive_setter_noop none false false (Value.numV 1) (Value.numV 1)
      (Or.inl (by decide))⟩

/-- Claim C6: `observe` is idempotent — a (non-`VNode`) value already
carrying an Observer gets that same Observer back, with no new Observer
constructed and the value untouched, so a container is wrapped by at
most one Observer ever; and a primitive gets nothing back and is never
wrapped. -/
theorem C6_observe_idempotent (shouldObs ssr : Bool) (st : ObsState) (o : ObsObj)
    (asRoot : Bool) (i : Nat) (hob : o.hasOb = some i) (hvn : o.isVNode = false) :
    (observe shouldObs ssr st (JsVal.objref o) asRoot).2.2 = some i ∧
    (observe shouldObs ssr st (JsVal.objref o) asRoot).2.1 = JsVal.objref o ∧
    (observe shouldObs ssr st (JsVal.objref o) asRoot).1.createdObs = st.createdObs ∧
    (observe shouldObs ssr st (JsVal.objref o) asRoot).1.nextOb = st.nextOb ∧
    (∀ pv : Value,
      observe shouldObs ssr st (JsVal.prim pv) asRoot = (st, JsVal.prim pv, none)) := by
  cases asRoot <;> simp [observe, hvn, hob, bumpVmCount]

/-- Concrete already-observed object and world for the C6 witness. -/
def obsObjEx : ObsObj :=
  { hasOb := some 7, isVNode := false, isVue := false,
    plainOrArray := true, extensible := true }

def obsStEx : ObsState := { nextOb := 8, createdObs := [7], vmCount := fun _ => 0 }

/-- Witness for C6: observing `obsObjEx` again returns Observer `7` and
creates nothing. -/
theorem C6_observe_idempotent_witness :
    obsObjEx.hasOb = some 7 ∧ obsObjEx.isVNode = false ∧
    ((observe true false obsStEx (JsVal.objref obsObjEx) false).2.2 = some 7 ∧
     (observe true false obsStEx (JsVal.objref obsObjEx) false).2.1 = JsVal.objref obsObjEx ∧
     (observe true false obsStEx (JsVal.objref obsObjEx) false).1.createdObs = obsStEx.createdObs ∧
     (observe true false obsStEx (JsVal.objref obsObjEx) false).1.nextOb = obsStEx.nextOb ∧
     (∀ pv : Value,
       observe true false obsStEx (JsVal.prim pv) false = (obsStEx, JsVal.prim pv, none))) :=
  ⟨rfl, rfl, C6_observe_idempotent true false obsStEx obsObjEx false 7 rfl rfl⟩

theorem runUpdates_invoked (update : WRef → List WRef → List WRef) :
    ∀ (l live : List WRef), (runUpdates update l live).2 = l.map WRef.id := by
  intro l
  induction l with
  | nil => intro live; rfl
  | cons w rest ih =>
      intro live
      simp [runUpdates, ih]

/-- Claim C7, counterexample: in a production build with `config.async`
false — a configuration in which the system runs watchers synchronously
— `notify()` does not sort the snapshot: with subscribers
`[id 2, id 1]`, `update()` runs in order `[2, 1]`, not ascending id
order. -/
theorem C7_notify_sorted_cex :
    (depNotify false false [⟨2⟩, ⟨1⟩] (fun _ live => live)).2 = [2, 1] ∧
    (depNotify false false [⟨2⟩, ⟨1⟩] (fun _ live => live)).2 ≠ [1, 2] := by
  constructor <;> decide

/-- Claim C7, amended: `notify()` operates on a snapshot of the
subscriber list taken before any `update()` call, so subscribers
unsubscribing mid-notify change neither which watchers are invoked nor
their order (the invocation sequence is a function of the pre-call list
alone, for every behavior of `update` on the live list); the snapshot
is first sorted by ascending watcher id only in non-production builds
with `config.async` disabled (in production builds, sync mode included,
and whenever `config.async` holds, the snapshot keeps subscription
order); `update()` is invoked on each snapshot member in that order. -/
theorem C7_notify_snapshot_spec (dev async : Bool) (subs : List WRef)
    (update : WRef → List WRef → List WRef) :
    (depNotify dev async subs update).2 = (notifySnapshot dev async subs).map WRef.id ∧
    notifySnapshot true false subs = sortById subs ∧
    (sortById subs).Sorted (fun a b => a.id ≤ b.id) ∧
    (sortById subs).Perm subs ∧
    notifySnapshot false async subs = subs ∧
    notifySnapshot dev true subs = subs := by
  refine ⟨runUpdates_invoked update _ subs, rfl,
    List.sorted_insertionSort _ subs, List.perm_insertionSort _ subs, rfl, ?_⟩
  cases dev <;> rfl

/-- Claim C8: `teardown()` is idempotent (a second call has no further
effect); after tearing down an active watcher satisfying the
subscription invariant, the watcher is marked inactive and is absent
from every dep's subscriber list (its multiplicity is `0` everywhere);
and `run()` on the torn-down watcher does nothing: no evaluation, no
callback, no state change. -/
theorem C8_teardown_idempotent (s : Sys) (hinv : depInv s) (hact : s.w.active = true) :
    Watcher.teardown (Watcher.teardown s) = Watcher.teardown s ∧
    (Watcher.teardown s).w.active = false ∧
    (∀ d, (Watcher.teardown s).subCount d = 0) ∧
    (∀ touched outcome, Watcher.run (Watcher.teardown s) touched outcome
      = (Watcher.teardown s, none, Except.ok ())) := by
  obtain ⟨hde, hnd, _, _, hsc⟩ := hinv
  have htd : Watcher.teardown s =
      { s with
        vmWatchers := if s.vmDestroying then s.vmWatchers else s.vmWatchers.erase s.w.id
        subCount := s.w.deps.reverse.foldl removeSubFrom s.subCount
        w := { s.w with active := false } } := by
    simp [Watcher.teardown, hact]
  have hactf : (Watcher.teardown s).w.active = false := by rw [htd]
  have hidem : ∀ s' : Sys, s'.w.active = false → Watcher.teardown s' = s' := by
    intro s' h
    simp [Watcher.teardown, h]
  refine ⟨hidem _ hactf, hactf, ?_, ?_⟩
  · intro d
    rw [htd]
    show (s.w.deps.reverse.foldl removeSubFrom s.subCount) d = 0
    rw [foldl_removeAll_char s.w.deps.reverse s.subCount
      (by rw [hde]; exact List.nodup_reverse.mpr hnd) d, hde]
    by_cases hD : d ∈ s.w.depIds <;> simp [List.mem_reverse, hD, hsc d]
  · intro touched outcome
    simp [Watcher.run, hactf]

/-- Witness for C8: teardown of the concrete active watcher world. -/
theorem C8_teardown_idempotent_witness :
    depInv sysEx ∧ sysEx.w.active = true ∧
    (Watcher.teardown (Watcher.teardown sysEx) = Watcher.teardown sysEx ∧
     (Watcher.teardown sysEx).w.active = false ∧
     (∀ d, (Watcher.teardown sysEx).subCount d = 0) ∧
     (∀ touched outcome, Watcher.run (Watcher.teardown sysEx) touched outcome
       = (Watcher.teardown sysEx, none, Except.ok ()))) :=
  ⟨sysEx_inv, rfl, C8_teardown_idempotent sysEx sysEx_inv rfl⟩

/-- Claim C9: a lazy watcher is not evaluated at construction (the
cached value stays `undefined`, `dirty` starts `true`, zero getter
evaluations); `update()` on a lazy watcher only sets `dirty` — no
re-evaluation, no value change, nothing queued; `evaluate()` re-runs
the getter exactly once, stores its result as the cached value, and
clears `dirty`. -/
theorem C9_lazy_watcher (id : Nat) (deep user sync : Bool) (vmW touched : List Nat)
    (gv : Value) (s : Sys) (hlzy : s.w.lazy = true) :
    (mkWatcherSys id deep user true sync vmW touched gv).evalCount = 0 ∧
    (mkWatcherSys id deep user true sync vmW touched gv).w.value = Value.undefinedV ∧
    (mkWatcherSys id deep user true sync vmW touched gv).w.dirty = true ∧
    (∀ t o, Watcher.update s t o =
      ({ s with w := { s.w with dirty := true } }, none, Except.ok (), false)) ∧
    (∀ t o, (Watcher.update s t o).1.evalCount = s.evalCount ∧
      (Watcher.update s t o).1.w.value = s.w.value) ∧
    (∀ t (v : Value), (Watcher.evaluate s t v).evalCount = s.evalCount + 1 ∧
      (Watcher.evaluate s t v).w.value = v ∧
      (Watcher.evaluate s t v).w.dirty = false) := by
  have hupd : ∀ t o, Watcher.update s t o =
      ({ s with w := { s.w with dirty := true } }, none, Except.ok (), false) := by
    intro t o
    simp [Watcher.update, hlzy]
  refine ⟨rfl, rfl, rfl, hupd, ?_, ?_⟩
  · intro t o
    rw [hupd t o]
    exact ⟨rfl, rfl⟩
  · intro t v
    exact ⟨rfl, rfl, rfl⟩

/-- Witness for C9: the lazy lifecycle on the concrete lazy watcher
(`sysEx` is exactly the constructed lazy watcher). -/
theorem C9_lazy_watcher_witness :
    sysEx.w.lazy = true ∧
    ((mkWatcherSys 1 false false true false [] [] Value.undefinedV).evalCount = 0 ∧
     (mkWatcherSys 1 false false true false [] [] Value.undefinedV).w.value
       = Value.undefinedV ∧
     (mkWatcherSys 1 false false true false [] [] Value.undefinedV).w.dirty = true ∧
     (∀ t o, Watcher.update sysEx t o =
       ({ sysEx with w := { sysEx.w with dirty := true } }, none, Except.ok (), false)) ∧
     (∀ t o, (Watcher.update sysEx t o).1.evalCount = sysEx.evalCount ∧
       (Watcher.update sysEx t o).1.w.value = sysEx.w.value) ∧
     (∀ t (v : Value), (Watcher.evaluate sysEx t v).evalCount = sysEx.evalCount + 1 ∧
       (Watcher.evaluate sysEx t v).w.value = v ∧
       (Watcher.evaluate sysEx t v).w.dirty = false)) :=
  ⟨rfl, C9_lazy_watcher 1 false false false [] [] Value.undefinedV sysEx rfl⟩

/-- Claim C10: `get()` restores the active-collector stack and
reconciles dependency sets on every exit path, including when the
evaluation throws: the previous collector is re-installed as
`Dep.target`, `cleanupDeps` has reconciled the dep sets to the touched
trace, and on a throw a `user` watcher routes the exception to the
error handler (`get()` returning `undefined`) while a non-`user`
watcher propagates it to the caller. -/
theorem C10_get_exception_paths (s : Sys) (touched : List Nat) (ec : Nat)
    (hinv : depInv s) (ht : s.target = (s.stack.getLast?).getD none) :
    ((Watcher.get s touched (Except.error ec)).1.stack = s.stack ∧
     (Watcher.get s touched (Except.error ec)).1.target = s.target) ∧
    (∀ d, d ∈ (Watcher.get s touched (Except.error ec)).1.w.depIds ↔ d ∈ touched) ∧
    depInv (Watcher.get s touched (Except.error ec)).1 ∧
    (s.w.user = true →
      (Watcher.get s touched (Except.error ec)).2 = Except.ok Value.undefinedV ∧
      (Watcher.get s touched (Except.error ec)).1.handledErrors = s.handledErrors + 1) ∧
    (s.w.user = false →
      (Watcher.get s touched (Except.error ec)).2 = Except.error ec) ∧
    (∀ v : Value,
      (Watcher.get s touched (Except.ok v)).1.stack = s.stack ∧
      (Watcher.get s touched (Except.ok v)).1.target = s.target) := by
  obtain ⟨h1, h2, h3, h4, h5, h6⟩ := get_error_facts s touched ec hinv
  refine ⟨⟨h3, by rw [h4, ht]⟩, h1, h2, h5, fun hu => (h6 hu).1, ?_⟩
  intro v
  obtain ⟨_, _, _, _, _, g6, g7⟩ := get_ok_facts s touched v hinv
  exact ⟨g6, by rw [g7, ht]⟩

/-- Witness for C10: the exception-path guarantees on the concrete
watcher world (`sysEx`, a non-`user` watcher) with trace `[3]`. -/
theorem C10_get_exception_paths_witness :
    depInv sysEx ∧ sysEx.target = (sysEx.stack.getLast?).getD none ∧
    (((Watcher.get sysEx [3] (Except.error 0)).1.stack = sysEx.stack ∧
      (Watcher.get sysEx [3] (Except.error 0)).1.target = sysEx.target) ∧
     (∀ d, d ∈ (Watcher.get sysEx [3] (Except.error 0)).1.w.depIds ↔ d ∈ [3]) ∧
     depInv (Watcher.get sysEx [3] (Except.error 0)).1 ∧
     (sysEx.w.user = true →
       (Watcher.get sysEx [3] (Except.error 0)).2 = Except.ok Value.undefinedV ∧
       (Watcher.get sysEx [3] (Except.error 0)).1.handledErrors
         = sysEx.handledErrors + 1) ∧
     (sysEx.w.user = false →
       (Watcher.get sysEx [3] (Except.error 0)).2 = Except.error 0) ∧
     (∀ v : Value,
       (Watcher.get sysEx [3] (Except.ok v)).1.stack = sysEx.stack ∧
       (Watcher.get sysEx [3] (Except.ok v)).1.target = sysEx.target)) :=
  ⟨sysEx_inv, rfl, C10_get_exception_paths sysEx [3] 0 sysEx_inv rfl⟩

end VueCore
